import Mathlib

/-!
Verification of the download-tracking subsystem of the vllm-dashboard
repository against its specification.

The repository ships only the frontend (TypeScript/React); the backend
download tracker described by the spec (§2–§7) is not part of the sources,
so it is modelled here directly from the spec's words.  The frontend's pure
logic (byte formatting, elapsed-time formatting, the poll-reconciliation
step of `Models.tsx`, and the WebSocket message buffer of `useDocker.ts`)
is translated from the source files.
-/

/-! ## Frontend: `formatElapsedTime` (src/frontend/src/pages/Models.tsx, lines 167–171) -/

/-- Translated from `Models.tsx`:
`const formatElapsedTime = (seconds) => { if (seconds < 60) return s+"s"; if (seconds < 3600) return floor(s/60)+"m "+(s%60)+"s"; return floor(s/3600)+"h "+floor((s%3600)/60)+"m" }`.
For natural-number input, JS `Math.floor(s / k)` is natural division. -/
def formatElapsedTime (seconds : Nat) : String :=
  if seconds < 60 then toString seconds ++ "s"
  else if seconds < 3600 then
    toString (seconds / 60) ++ "m " ++ toString (seconds % 60) ++ "s"
  else
    toString (seconds / 3600) ++ "h " ++ toString (seconds % 3600 / 60) ++ "m"

/-! ## Frontend: WebSocket message buffer (src/frontend/src/components/hooks/useDocker.ts, lines 130–138) -/

/-- Translated from `useWebSocket`'s message handler in `useDocker.ts`:
`setMessages(prev => [...prev.slice(-99), data])`.
JS `prev.slice(-99)` keeps the last `min (length prev) 99` elements,
which is `prev.drop (prev.length - 99)` (truncated subtraction). -/
def pushMessage {α : Type} (prev : List α) (data : α) : List α :=
  prev.drop (prev.length - 99) ++ [data]

/-! ## Frontend: poll reconciliation (src/frontend/src/pages/Models.tsx, lines 57–71) -/

/-- Translated from the success path of `fetchActiveDownloads` in `Models.tsx`:
after `setActiveDownloads(downloads)`, the models list is re-fetched exactly
when `downloads.length < prevDownloadCountRef.current`, and then
`prevDownloadCountRef.current = downloads.length`.  The result is the pair
(models list re-fetched?, new recorded previous count). -/
def fetchActiveDownloadsStep {α : Type} (prevCount : Nat) (downloads : List α) :
    Bool × Nat :=
  (decide (downloads.length < prevCount), downloads.length)

/-! ## Frontend: client-side status type (src/frontend/src/pages/Models.tsx, lines 10–20) -/

/-- Translated from the `ActiveDownload` interface in `Models.tsx`:
`status: 'pending' | 'downloading' | 'completed' | 'failed'`.
Note the client-side union names four of the five tracker statuses
(`cancelled` does not appear in the frontend type). -/
inductive ClientStatus : Type
  | pending
  | downloading
  | completed
  | failed
deriving DecidableEq, Repr

/-- Wire string of each member of the `ActiveDownload` status union. -/
def ClientStatus.toWire : ClientStatus → String
  | .pending => "pending"
  | .downloading => "downloading"
  | .completed => "completed"
  | .failed => "failed"

/-! ## Frontend: `formatBytes` (src/frontend/src/utils/formatters.ts, lines 10–18) -/

/-- Fuel-driven base-1024 logarithm; called with `fuel = n` it computes
`⌊log₁₀₂₄ n⌋` for `n ≥ 1` (the number of divisions by 1024 before the
value drops below 1024). -/
def log1024Aux : Nat → Nat → Nat
  | 0, _ => 0
  | fuel + 1, n => if n < 1024 then 0 else log1024Aux fuel (n / 1024) + 1

/-- Reference unit index: the exact mathematical `⌊log₁₀₂₄ n⌋` for positive
`n`.  This is not asserted to equal the JS double expression
`Math.floor(Math.log(bytes) / Math.log(1024))` everywhere: within a few ulps
of an exact power of 1024 (e.g. at `1024 ^ 5 - 1`) the
implementation-approximated double logarithm can land on the next integer,
so there the source's index is implementation-defined (see `formatBytes`). -/
def log1024 (n : Nat) : Nat := log1024Aux n n

/-- The JS array `sizes = ['B', 'KB', 'MB', 'GB', 'TB']`. -/
def byteUnits : List String := ["B", "KB", "MB", "GB", "TB"]

/-- Value of JS `(bytes / s).toFixed(2)` scaled by 100, for `s` a positive
power of two: `bytes / s` is exact in IEEE doubles, and `toFixed(2)` picks
the integer `m` with `m / 100` closest to the value, ties toward the larger
`m`; that integer is `⌊100 * bytes / s + 1/2⌋ = (200 * bytes + s) / (2 * s)`. -/
def toFixed2 (bytes s : Nat) : Nat := (200 * bytes + s) / (2 * s)

/-- Decimal rendering of `m / 100` the way JS renders
`parseFloat(x.toFixed(2))` back to a string: trailing zeros of the
two-decimal expansion are dropped, and a whole number is rendered with no
decimal point. -/
def renderCenti (m : Nat) : String :=
  if m % 100 = 0 then toString (m / 100)
  else if m % 10 = 0 then toString (m / 100) ++ "." ++ toString (m % 100 / 10)
  else toString (m / 100) ++ "." ++ toString (m % 100 / 10) ++ toString (m % 10)

/-- Translated from `formatters.ts`, abstracted over the unit index:
`formatBytes = (bytes) => { if (bytes === 0) return '0 B'; const k = 1024; const sizes = ['B','KB','MB','GB','TB']; const i = Math.floor(Math.log(bytes)/Math.log(k)); return parseFloat((bytes/Math.pow(k,i)).toFixed(2)) + ' ' + sizes[i] }`.
Here `i` is the value the JS double expression
`Math.floor(Math.log(bytes)/Math.log(1024))` produced, taken as a parameter
because ECMAScript leaves `Math.log` implementation-approximated, so near
exact powers of 1024 its floor is not determined by the source.  Everything
downstream of `i` is exact: `bytes / 1024^i` divides by a power of two and
is exact in IEEE doubles, `toFixed(2)`/`parseFloat` are modelled exactly by
`toFixed2`/`renderCenti`, and JS `sizes[i]` is `undefined` for `i ≥ 5`,
rendered by string concatenation as `"undefined"`, modelled by
`List.getD _ _ "undefined"`. -/
def formatBytesWith (i : Nat) (bytes : Nat) : String :=
  if bytes = 0 then "0 B"
  else renderCenti (toFixed2 bytes (1024 ^ i)) ++ " " ++ byteUnits.getD i "undefined"

/-- The reference instantiation of `formatBytesWith` at the exact
`⌊log₁₀₂₄ bytes⌋`.  The JS double computation of the index agrees with this
except possibly within a few ulps of an exact power of 1024 (e.g. at
`1024 ^ 5 - 1`, where `Math.log(bytes)` can round to the same double as
`Math.log(1024 ^ 5)`, the quotient becomes exactly 5, and the source then
renders the unit `"undefined"`). -/
def formatBytes (bytes : Nat) : String := formatBytesWith (log1024 bytes) bytes

/-- A string carries one of the five binary-prefix units of the spec when it
ends in `" B"`, `" KB"`, `" MB"`, `" GB"` or `" TB"` (checked on the
character list). -/
def hasByteUnit (s : String) : Bool :=
  byteUnits.any fun u => (" " ++ u).data.isSuffixOf s.data

/-! ## Download Task Tracker (modelled from the spec)

The backend that implements §2–§7 of the spec is not among the repository
sources (the repo ships only the frontend, which talks to it over
`/api/models/download/...`), so the tracker is modelled here from the
spec's words. -/

/-- Modelled from the spec: `status` is one of
`pending | downloading | completed | failed | cancelled` (§3, §4.1). -/
inductive Status : Type
  | pending
  | downloading
  | completed
  | failed
  | cancelled
deriving DecidableEq, Repr

/-- Terminal statuses per the spec's glossary: `completed`, `failed`,
`cancelled` — no further transitions permitted. -/
def Status.isTerminal : Status → Bool
  | .completed => true
  | .failed => true
  | .cancelled => true
  | _ => false

/-- Active statuses per the spec's glossary: `pending` or `downloading`. -/
def Status.isActive : Status → Bool
  | .pending => true
  | .downloading => true
  | _ => false

/-- Wire string of a tracker status. -/
def Status.toWire : Status → String
  | .pending => "pending"
  | .downloading => "downloading"
  | .completed => "completed"
  | .failed => "failed"
  | .cancelled => "cancelled"

/-- Modelled from the spec: the `DownloadTask` value object (§3).
`elapsed_seconds` is derived at read time and so is not a field;
timestamps are abstracted to naturals. -/
structure DownloadTask : Type where
  id : Nat
  model_name : String
  revision : Option String
  status : Status
  progress : String
  downloaded_bytes : Nat
  error : Option String
  started_at : Nat
deriving DecidableEq, Repr

/-- Modelled from the spec: the `TaskRegistry` (§4.2), a mapping from task id
to task, with ids handed out from a counter so that no id is ever reused. -/
structure Registry : Type where
  tasks : List DownloadTask
  nextId : Nat
deriving DecidableEq, Repr

/-- The empty registry at process start. -/
def Registry.empty : Registry := ⟨[], 0⟩

/-- Lookup of a task by id (first match). -/
def Registry.find? (r : Registry) (id : Nat) : Option DownloadTask :=
  r.tasks.find? fun t => t.id == id

/-- Modelled from the spec: the error taxonomy of §7 that the registry's
synchronous operations can surface. -/
inductive RegError : Type
  | DuplicateActiveDownload
  | UnknownTask
  | AlreadyTerminal
deriving DecidableEq, Repr

/-- An active (`pending`/`downloading`) task for the given model name
exists in the registry. -/
def Registry.hasActive (r : Registry) (mn : String) : Bool :=
  r.tasks.any fun t => t.model_name == mn && t.status.isActive

/-- Number of active tasks for the given model name. -/
def Registry.countActive (r : Registry) (mn : String) : Nat :=
  (r.tasks.filter fun t => t.model_name == mn && t.status.isActive).length

/-- Modelled from the spec: `register(model_name, revision) -> task_id`
(§4.2) — fails with `DuplicateActiveDownload` if an active task already
exists for the same `model_name`; otherwise creates a task in `pending`
(fresh id, zero bytes, no error, `started_at` fixed at creation) and
returns its id. -/
def Registry.register (r : Registry) (mn : String) (rev : Option String)
    (now : Nat) : Except RegError (Nat × Registry) :=
  if r.hasActive mn then .error .DuplicateActiveDownload
  else
    .ok (r.nextId,
      ⟨r.tasks ++ [⟨r.nextId, mn, rev, .pending, "", 0, none, now⟩],
       r.nextId + 1⟩)

/-- Modelled from the spec: the executor-originated mutations of §4.1/§6 —
begin of transfer (`pending → downloading`), a progress/byte-count report
(never rewinds bytes), and the terminal callback (`completed` or `failed`
with the causing message). -/
inductive UpdateMsg : Type
  | beginTransfer (msg : String)
  | progress (bytes : Nat) (msg : String)
  | finished
  | failedWith (err : String)
deriving DecidableEq, Repr

/-- Modelled from the spec: the effect of one `update` on one task.  A
terminal task is never mutated (terminal-freeze: the registry treats the
update as a no-op, §4.2); a progress report overwrites `progress` and
`downloaded_bytes` but never rewinds the byte counter (§4.1); a failure
records the causing message in `error` (§4.1, §7). -/
def applyUpdate (t : DownloadTask) (u : UpdateMsg) : DownloadTask :=
  if t.status.isTerminal then t
  else
    match u with
    | .beginTransfer msg => { t with status := .downloading, progress := msg }
    | .progress b msg =>
        { t with status := .downloading, progress := msg,
                 downloaded_bytes := max t.downloaded_bytes b }
    | .finished => { t with status := .completed }
    | .failedWith e => { t with status := .failed, error := some e }

/-- Modelled from the spec: `update(task_id, partial_fields)` (§4.2) —
fails with `UnknownTask` if the id is absent, and is a no-op on a task that
is already terminal. -/
def Registry.update (r : Registry) (id : Nat) (u : UpdateMsg) :
    Except RegError Registry :=
  match r.find? id with
  | none => .error .UnknownTask
  | some _ =>
      .ok ⟨r.tasks.map fun t => if t.id == id then applyUpdate t u else t,
           r.nextId⟩

/-- Modelled from the spec: the cancellation protocol (§4.3) — fails with
`UnknownTask` if the id is absent, fails with `AlreadyTerminal` if the task
is already terminal, and otherwise transitions the task to `cancelled`.
The executor handshake (cleanup of partial files) happens outside the
registry state and is not modelled. -/
def Registry.cancel (r : Registry) (id : Nat) : Except RegError Registry :=
  match r.find? id with
  | none => .error .UnknownTask
  | some t =>
      if t.status.isTerminal then .error .AlreadyTerminal
      else
        .ok ⟨r.tasks.map fun t' =>
               if t'.id == id then { t' with status := Status.cancelled } else t',
             r.nextId⟩

/-- Modelled from the spec: `remove(task_id)` (§4.2) — deletes a task
regardless of state. -/
def Registry.remove (r : Registry) (id : Nat) : Registry :=
  ⟨r.tasks.filter fun t => !(t.id == id), r.nextId⟩

/-- One operation against the registry, as issued by the request layer or
the executor (§5, §6). -/
inductive Op : Type
  | register (mn : String) (rev : Option String) (now : Nat)
  | update (id : Nat) (u : UpdateMsg)
  | cancel (id : Nat)
  | remove (id : Nat)
deriving DecidableEq, Repr

/-- State evolution under one operation: a failed synchronous operation
leaves the registry unchanged (§7: fail fast, no partial mutation). -/
def Registry.applyOp (r : Registry) : Op → Registry
  | .register mn rev now =>
      match r.register mn rev now with
      | .ok p => p.2
      | .error _ => r
  | .update id u =>
      match r.update id u with
      | .ok r2 => r2
      | .error _ => r
  | .cancel id =>
      match r.cancel id with
      | .ok r2 => r2
      | .error _ => r
  | .remove id => r.remove id

/-- State after a sequence of operations. -/
def Registry.run (r : Registry) (ops : List Op) : Registry :=
  ops.foldl Registry.applyOp r

/-- Modelled from the spec: one row of `StatusReporter.snapshot()` (§4.4):
`{id, model_name, status, progress, downloaded_bytes, downloaded_size_human, elapsed_seconds, error}`. -/
structure SnapshotEntry : Type where
  id : Nat
  model_name : String
  status : Status
  progress : String
  downloaded_bytes : Nat
  downloaded_size_human : String
  elapsed_seconds : Nat
  error : Option String
deriving DecidableEq, Repr

/-- Projection of one task into a snapshot row; `downloaded_size_human` is
derived through `formatBytes` and `elapsed_seconds` is `now - started_at`. -/
def snapshotTask (now : Nat) (t : DownloadTask) : SnapshotEntry :=
  ⟨t.id, t.model_name, t.status, t.progress, t.downloaded_bytes,
   formatBytes t.downloaded_bytes, now - t.started_at, t.error⟩

/-- Modelled from the spec: `list_downloads()` / `StatusReporter.snapshot()`
(§4.4, §6) — a pure, side-effect-free projection of the registry. -/
def Registry.snapshot (r : Registry) (now : Nat) : List SnapshotEntry :=
  r.tasks.map (snapshotTask now)

/-- Well-formedness: every stored task's id is below the id counter (so a
fresh registration can never collide with an existing id — §3: no id reuse),
and stored ids are pairwise distinct (§3: `id` is unique). -/
def Registry.WF (r : Registry) : Prop :=
  (∀ t ∈ r.tasks, t.id < r.nextId) ∧ (r.tasks.map DownloadTask.id).Nodup

instance (r : Registry) : Decidable r.WF := by
  unfold Registry.WF; infer_instance

/-- The error/status consistency invariant of §3: `error` is populated if and
only if the task has failed. -/
def Registry.Inv (r : Registry) : Prop :=
  ∀ t ∈ r.tasks, (t.error.isSome = true ↔ t.status = Status.failed)


/-! ## Helper lemmas on `List.find?` -/

/-- A map by a function that does not change the search predicate commutes
with `find?`. -/
theorem find?_map_pred {α : Type} (f : α → α) (p : α → Bool)
    (hf : ∀ x, p (f x) = p x) (l : List α) :
    (l.map f).find? p = (l.find? p).map f := by
  induction l with
  | nil => rfl
  | cons a l ih =>
    simp only [List.map_cons, List.find?_cons, hf a]
    cases hpa : p a
    · simpa [hpa] using ih
    · simp [hpa]

/-- Filtering by a predicate implied by the search predicate does not change
the result of `find?`. -/
theorem find?_filter_of_imp {α : Type} (p q : α → Bool)
    (h : ∀ x, p x = true → q x = true) (l : List α) :
    (l.filter q).find? p = l.find? p := by
  induction l with
  | nil => rfl
  | cons a l ih =>
    by_cases hqa : q a = true
    · simp only [List.filter_cons, hqa, if_true, List.find?_cons]
      cases hpa : p a <;> simp [hpa, ih]
    · have hpa : p a = false := by
        cases hp : p a
        · rfl
        · exact absurd (h a hp) hqa
      simp [List.filter_cons, hqa, List.find?_cons, hpa, ih]

/-! ## Basic facts about `applyUpdate` and the registry operations -/

/-- An update never changes a task's id. -/
theorem applyUpdate_id (t : DownloadTask) (u : UpdateMsg) :
    (applyUpdate t u).id = t.id := by
  unfold applyUpdate
  cases t.status.isTerminal <;> cases u <;> simp

/-- Terminal-freeze: an update leaves a terminal task untouched. -/
theorem applyUpdate_terminal (t : DownloadTask) (u : UpdateMsg)
    (h : t.status.isTerminal = true) : applyUpdate t u = t := by
  simp [applyUpdate, h]

/-- An update never rewinds the byte counter. -/
theorem applyUpdate_bytes_mono (t : DownloadTask) (u : UpdateMsg) :
    t.downloaded_bytes ≤ (applyUpdate t u).downloaded_bytes := by
  unfold applyUpdate
  cases t.status.isTerminal <;> cases u <;> simp [Nat.le_max_left]

/-- `applyOp` never decreases the id counter. -/
theorem nextId_le_applyOp (r : Registry) (op : Op) :
    r.nextId ≤ (r.applyOp op).nextId := by
  cases op with
  | register mn rev now =>
    unfold Registry.applyOp Registry.register
    by_cases h : r.hasActive mn = true <;> simp [h]
  | update id u =>
    unfold Registry.applyOp Registry.update
    cases hf : r.find? id <;> simp [hf]
  | cancel id =>
    unfold Registry.applyOp Registry.cancel
    cases hf : r.find? id with
    | none => simp [hf]
    | some t => by_cases ht : t.status.isTerminal = true <;> simp [hf, ht]
  | remove id =>
    unfold Registry.applyOp Registry.remove
    simp

/-- Mapping tasks by an id-preserving function does not change the list of
stored ids. -/
theorem map_id_of_id_preserved (f : DownloadTask → DownloadTask)
    (hf : ∀ x, (f x).id = x.id) (l : List DownloadTask) :
    (l.map f).map DownloadTask.id = l.map DownloadTask.id := by
  rw [List.map_map]
  exact List.map_congr_left fun a _ => hf a

/-- Well-formedness is preserved by every operation. -/
theorem WF_applyOp (r : Registry) (hwf : r.WF) (op : Op) :
    (r.applyOp op).WF := by
  obtain ⟨hbound, hnodup⟩ := hwf
  cases op with
  | register mn rev now =>
    unfold Registry.applyOp Registry.register
    by_cases h : r.hasActive mn = true
    · simpa [h] using ⟨hbound, hnodup⟩
    · simp only [h, if_false, Bool.false_eq_true]
      refine ⟨?_, ?_⟩
      · intro t ht
        rcases List.mem_append.mp ht with h1 | h1
        · exact Nat.lt_succ_of_lt (hbound t h1)
        · simp only [List.mem_singleton] at h1
          subst h1
          exact Nat.lt_succ_self _
      · rw [List.map_append]
        refine List.Nodup.append hnodup (List.nodup_singleton _) ?_
        intro a ha hb
        simp only [List.map_cons, List.map_nil, List.mem_singleton] at hb
        subst hb
        rcases List.mem_map.mp ha with ⟨t, htmem, htid⟩
        exact absurd (htid ▸ hbound t htmem) (Nat.lt_irrefl _)
  | update id u =>
    unfold Registry.applyOp Registry.update
    cases hfind : r.find? id with
    | none => simpa [hfind] using ⟨hbound, hnodup⟩
    | some t0 =>
      simp only [hfind]
      refine ⟨?_, ?_⟩
      · intro t ht
        rcases List.mem_map.mp ht with ⟨a, hamem, haeq⟩
        have : t.id = a.id := by
          subst haeq
          by_cases hcase : (a.id == id) = true <;> simp [hcase, applyUpdate_id]
        rw [this]
        exact hbound a hamem
      · rw [map_id_of_id_preserved _ ?_]
        · exact hnodup
        · intro x
          by_cases hcase : (x.id == id) = true <;> simp [hcase, applyUpdate_id]
  | cancel id =>
    unfold Registry.applyOp Registry.cancel
    cases hfind : r.find? id with
    | none => simpa [hfind] using ⟨hbound, hnodup⟩
    | some t0 =>
      by_cases ht0 : t0.status.isTerminal = true
      · simpa [hfind, ht0] using ⟨hbound, hnodup⟩
      · simp only [hfind, ht0, if_false, Bool.false_eq_true]
        refine ⟨?_, ?_⟩
        · intro t ht
          rcases List.mem_map.mp ht with ⟨a, hamem, haeq⟩
          have : t.id = a.id := by
            subst haeq
            by_cases hcase : (a.id == id) = true <;> simp [hcase]
          rw [this]
          exact hbound a hamem
        · rw [map_id_of_id_preserved _ ?_]
          · exact hnodup
          · intro x
            by_cases hcase : (x.id == id) = true <;> simp [hcase]
  | remove id =>
    unfold Registry.applyOp Registry.remove
    refine ⟨?_, ?_⟩
    · intro t ht
      exact hbound t (List.mem_of_mem_filter ht)
    · exact List.Nodup.sublist (List.Sublist.map _ (List.filter_sublist _)) hnodup

/-- The per-task mutation of `Registry.update` preserves the id predicate
used by lookups. -/
theorem update_fn_pred (id2 id : Nat) (u : UpdateMsg) :
    ∀ x : DownloadTask,
      ((if (x.id == id2) = true then applyUpdate x u else x).id == id) =
        (x.id == id) := by
  intro x
  by_cases hcase : (x.id == id2) = true <;> simp [hcase, applyUpdate_id]

/-- The per-task mutation of `Registry.cancel` preserves the id predicate
used by lookups. -/
theorem cancel_fn_pred (id2 id : Nat) :
    ∀ x : DownloadTask,
      ((if (x.id == id2) = true then
          { x with status := Status.cancelled } else x).id == id) =
        (x.id == id) := by
  intro x
  by_cases hcase : (x.id == id2) = true <;> simp [hcase]

/-- An id that is absent and below the id counter stays absent under any
single operation (fresh registrations use ids at or above the counter). -/
theorem find?_none_applyOp (r : Registry) (id : Nat) (hid : id < r.nextId)
    (hf : r.find? id = none) (op : Op) :
    (r.applyOp op).find? id = none := by
  have hall : ∀ x ∈ r.tasks, ¬((fun t => t.id == id) x = true) :=
    List.find?_eq_none.mp hf
  cases op with
  | register mn rev now =>
    unfold Registry.applyOp Registry.register
    by_cases h : r.hasActive mn = true
    · simpa [h] using hf
    · simp only [h, if_false, Bool.false_eq_true]
      unfold Registry.find? at hf ⊢
      simp only [List.find?_append, hf, Option.none_or]
      simp only [List.find?_cons, List.find?_nil]
      have : (r.nextId == id) = false := by
        simp only [beq_eq_false_iff_ne, ne_eq]
        exact fun h2 => absurd (h2 ▸ hid) (Nat.lt_irrefl _)
      simp [this]
  | update id2 u =>
    unfold Registry.applyOp Registry.update
    cases hfind : r.find? id2 with
    | none => simpa [hfind] using hf
    | some t0 =>
      simp only [hfind]
      unfold Registry.find? at hf ⊢
      rw [find?_map_pred _ _ (update_fn_pred id2 id u), hf]
      rfl
  | cancel id2 =>
    unfold Registry.applyOp Registry.cancel
    cases hfind : r.find? id2 with
    | none => simpa [hfind] using hf
    | some t0 =>
      by_cases ht0 : t0.status.isTerminal = true
      · simpa [hfind, ht0] using hf
      · simp only [hfind, ht0, if_false, Bool.false_eq_true]
        unfold Registry.find? at hf ⊢
        rw [find?_map_pred _ _ (cancel_fn_pred id2 id), hf]
        rfl
  | remove id2 =>
    unfold Registry.applyOp Registry.remove
    unfold Registry.find?
    apply List.find?_eq_none.mpr
    intro x hx
    exact hall x (List.mem_of_mem_filter hx)

/-- Terminal-freeze, one step: a task observed in a terminal status is either
still there with identical fields, or has been removed, after any single
operation. -/
theorem find?_frozen_applyOp (r : Registry) (id : Nat) (t : DownloadTask)
    (hf : r.find? id = some t) (ht : t.status.isTerminal = true) (op : Op) :
    (r.applyOp op).find? id = some t ∨ (r.applyOp op).find? id = none := by
  have hf0 : List.find? (fun x => x.id == id) r.tasks = some t := hf
  have htid : t.id = id := by simpa using List.find?_some hf0
  cases op with
  | register mn rev now =>
    unfold Registry.applyOp Registry.register
    by_cases h : r.hasActive mn = true
    · left; simpa [h] using hf
    · left
      simp only [h, if_false, Bool.false_eq_true]
      unfold Registry.find? at hf ⊢
      simp [List.find?_append, hf]
  | update id2 u =>
    unfold Registry.applyOp Registry.update
    cases hfind : r.find? id2 with
    | none => left; simpa [hfind] using hf
    | some t0 =>
      left
      simp only [hfind]
      unfold Registry.find? at hf ⊢
      rw [find?_map_pred _ _ (update_fn_pred id2 id u), hf]
      simp only [Option.map]
      by_cases hcase : (t.id == id2) = true
      · simp [hcase, applyUpdate_terminal t u ht]
      · simp [hcase]
  | cancel id2 =>
    unfold Registry.applyOp Registry.cancel
    cases hfind : r.find? id2 with
    | none => left; simpa [hfind] using hf
    | some t0 =>
      by_cases ht0 : t0.status.isTerminal = true
      · left; simpa [hfind, ht0] using hf
      · by_cases hid2 : id2 = id
        · subst hid2
          rw [hf] at hfind
          cases hfind
          exact absurd ht ht0
        · left
          simp only [hfind, ht0, if_false, Bool.false_eq_true]
          unfold Registry.find? at hf ⊢
          rw [find?_map_pred _ _ (cancel_fn_pred id2 id), hf]
          simp only [Option.map]
          have : (t.id == id2) = false := by
            simp only [beq_eq_false_iff_ne, ne_eq, htid]
            exact fun h2 => hid2 h2.symm
          simp [this]
  | remove id2 =>
    unfold Registry.applyOp Registry.remove
    by_cases hid2 : id2 = id
    · right
      subst hid2
      unfold Registry.find?
      apply List.find?_eq_none.mpr
      intro x hx
      have := List.of_mem_filter hx
      simp only [Bool.not_eq_eq_eq_not, Bool.not_true] at this
      simp [this]
    · left
      unfold Registry.find? at hf ⊢
      rw [find?_filter_of_imp _ _ ?_ _, hf]
      intro x hx
      have hxid : x.id = id := by simpa using hx
      simp only [Bool.not_eq_eq_eq_not, Bool.not_true, beq_eq_false_iff_ne, ne_eq, hxid]
      exact fun h2 => hid2 h2.symm

/-- An id that is absent and below the id counter stays absent under any
sequence of operations. -/
theorem find?_none_run (r : Registry) (id : Nat) (hid : id < r.nextId)
    (hf : r.find? id = none) (ops : List Op) :
    (r.run ops).find? id = none := by
  induction ops generalizing r with
  | nil => exact hf
  | cons op ops ih =>
    have hstep := find?_none_applyOp r id hid hf op
    have hid2 : id < (r.applyOp op).nextId :=
      Nat.lt_of_lt_of_le hid (nextId_le_applyOp r op)
    exact ih (r.applyOp op) hid2 hstep

/-- Evaluation equation: a run over the empty operation list. -/
theorem run_nil (r : Registry) : r.run [] = r := rfl

/-- Evaluation equation: a run over a cons cell. -/
theorem run_cons (r : Registry) (op : Op) (ops : List Op) :
    r.run (op :: ops) = (r.applyOp op).run ops := rfl

/-- Evaluation equation for `applyOp` on a rejected registration. -/
theorem applyOp_register_dup (r : Registry) (mn : String) (rev : Option String)
    (now : Nat) (h : r.hasActive mn = true) :
    r.applyOp (Op.register mn rev now) = r := by
  unfold Registry.applyOp Registry.register
  simp [h]

/-- Evaluation equation for `applyOp` on an accepted registration. -/
theorem applyOp_register_fresh (r : Registry) (mn : String)
    (rev : Option String) (now : Nat) (h : r.hasActive mn = false) :
    r.applyOp (Op.register mn rev now) =
      ⟨r.tasks ++ [⟨r.nextId, mn, rev, .pending, "", 0, none, now⟩],
       r.nextId + 1⟩ := by
  unfold Registry.applyOp Registry.register
  simp [h]

/-- Evaluation equation for `applyOp` on an update of an unknown id. -/
theorem applyOp_update_none (r : Registry) (id : Nat) (u : UpdateMsg)
    (h : r.find? id = none) : r.applyOp (Op.update id u) = r := by
  unfold Registry.applyOp Registry.update
  simp [h]

/-- Evaluation equation for `applyOp` on an update of a present id. -/
theorem applyOp_update_some (r : Registry) (id : Nat) (u : UpdateMsg)
    (t0 : DownloadTask) (h : r.find? id = some t0) :
    r.applyOp (Op.update id u) =
      ⟨r.tasks.map fun t => if (t.id == id) = true then applyUpdate t u else t,
       r.nextId⟩ := by
  unfold Registry.applyOp Registry.update
  simp [h]

/-- Evaluation equation for `applyOp` on a cancel of an unknown id. -/
theorem applyOp_cancel_none (r : Registry) (id : Nat)
    (h : r.find? id = none) : r.applyOp (Op.cancel id) = r := by
  unfold Registry.applyOp Registry.cancel
  simp [h]

/-- Evaluation equation for `applyOp` on a cancel of a terminal task. -/
theorem applyOp_cancel_terminal (r : Registry) (id : Nat) (t0 : DownloadTask)
    (h : r.find? id = some t0) (ht0 : t0.status.isTerminal = true) :
    r.applyOp (Op.cancel id) = r := by
  unfold Registry.applyOp Registry.cancel
  simp [h, ht0]

/-- Evaluation equation for `applyOp` on a cancel of an in-flight task. -/
theorem applyOp_cancel_live (r : Registry) (id : Nat) (t0 : DownloadTask)
    (h : r.find? id = some t0) (ht0 : t0.status.isTerminal = false) :
    r.applyOp (Op.cancel id) =
      ⟨r.tasks.map fun t =>
         if (t.id == id) = true then { t with status := Status.cancelled } else t,
       r.nextId⟩ := by
  unfold Registry.applyOp Registry.cancel
  simp [h, ht0]

/-- Evaluation equation for `applyOp` on a removal. -/
theorem applyOp_remove (r : Registry) (id : Nat) :
    r.applyOp (Op.remove id) =
      ⟨r.tasks.filter fun t => !(t.id == id), r.nextId⟩ := rfl

/-- Terminal-freeze over a whole run: once a task is observed in a terminal
status, every later state either still stores it with identical fields or no
longer stores its id at all. -/
theorem find?_frozen_run (r : Registry) (hwf : r.WF) (id : Nat)
    (t : DownloadTask) (hf : r.find? id = some t)
    (ht : t.status.isTerminal = true) (ops : List Op) :
    (r.run ops).find? id = some t ∨ (r.run ops).find? id = none := by
  induction ops generalizing r with
  | nil => exact Or.inl hf
  | cons op ops ih =>
    have hf0 : List.find? (fun x => x.id == id) r.tasks = some t := hf
    have htid : t.id = id := by simpa using List.find?_some hf0
    have hid : id < r.nextId :=
      htid ▸ hwf.1 t (List.mem_of_find?_eq_some hf0)
    have hid2 : id < (r.applyOp op).nextId :=
      Nat.lt_of_lt_of_le hid (nextId_le_applyOp r op)
    rw [run_cons]
    rcases find?_frozen_applyOp r id t hf ht op with hsome | hnone
    · exact ih (r.applyOp op) (WF_applyOp r hwf op) hsome
    · exact Or.inr (find?_none_run (r.applyOp op) id hid2 hnone ops)

/-- Byte-counter monotonicity, one step: whatever a single operation does,
a task that remains stored never sees its byte counter decrease. -/
theorem bytes_mono_applyOp (r : Registry) (id : Nat) (t t' : DownloadTask)
    (hf : r.find? id = some t) (op : Op)
    (hf' : (r.applyOp op).find? id = some t') :
    t.downloaded_bytes ≤ t'.downloaded_bytes := by
  have hf0 : List.find? (fun x => x.id == id) r.tasks = some t := hf
  cases op with
  | register mn rev now =>
    by_cases h : r.hasActive mn = true
    · rw [applyOp_register_dup r mn rev now h, hf] at hf'
      cases hf'
      exact Nat.le_refl _
    · rw [applyOp_register_fresh r mn rev now ?_] at hf'
      · unfold Registry.find? at hf'
        rw [List.find?_append, hf0] at hf'
        simp only [Option.or] at hf'
        cases hf'
        exact Nat.le_refl _
      · simpa using h
  | update id2 u =>
    cases hfind : r.find? id2 with
    | none =>
      rw [applyOp_update_none r id2 u hfind, hf] at hf'
      cases hf'
      exact Nat.le_refl _
    | some t0 =>
      rw [applyOp_update_some r id2 u t0 hfind] at hf'
      unfold Registry.find? at hf'
      rw [find?_map_pred _ _ (update_fn_pred id2 id u), hf0] at hf'
      simp only [Option.map] at hf'
      cases hf'
      by_cases hcase : (t.id == id2) = true
      · simp only [hcase, if_true]
        exact applyUpdate_bytes_mono t u
      · simp only [hcase, Bool.false_eq_true, if_false]
        exact Nat.le_refl _
  | cancel id2 =>
    cases hfind : r.find? id2 with
    | none =>
      rw [applyOp_cancel_none r id2 hfind, hf] at hf'
      cases hf'
      exact Nat.le_refl _
    | some t0 =>
      by_cases ht0 : t0.status.isTerminal = true
      · rw [applyOp_cancel_terminal r id2 t0 hfind ht0, hf] at hf'
        cases hf'
        exact Nat.le_refl _
      · rw [applyOp_cancel_live r id2 t0 hfind ?_] at hf'
        · unfold Registry.find? at hf'
          rw [find?_map_pred _ _ (cancel_fn_pred id2 id), hf0] at hf'
          simp only [Option.map] at hf'
          cases hf'
          by_cases hcase : (t.id == id2) = true <;> simp [hcase]
        · simpa using ht0
  | remove id2 =>
    rw [applyOp_remove] at hf'
    by_cases hid2 : id2 = id
    · subst hid2
      unfold Registry.find? at hf'
      have hnone : List.find? (fun x => x.id == id2)
          (r.tasks.filter fun x => !(x.id == id2)) = none := by
        apply List.find?_eq_none.mpr
        intro x hx
        have := List.of_mem_filter hx
        simp only [Bool.not_eq_eq_eq_not, Bool.not_true] at this
        simp [this]
      rw [hnone] at hf'
      cases hf'
    · unfold Registry.find? at hf'
      rw [find?_filter_of_imp _ _ ?_ _, hf0] at hf'
      · cases hf'
        exact Nat.le_refl _
      · intro x hx
        have hxid : x.id = id := by simpa using hx
        simp only [Bool.not_eq_eq_eq_not, Bool.not_true, beq_eq_false_iff_ne,
          ne_eq, hxid]
        exact fun h2 => hid2 h2.symm

/-- Byte-counter monotonicity over a whole run: across any sequence of
operations, a stored task's byte counter never decreases. -/
theorem bytes_mono_run (r : Registry) (hwf : r.WF) (id : Nat)
    (t t' : DownloadTask) (hf : r.find? id = some t) (ops : List Op)
    (hf' : (r.run ops).find? id = some t') :
    t.downloaded_bytes ≤ t'.downloaded_bytes := by
  induction ops generalizing r t with
  | nil =>
    rw [run_nil, hf] at hf'
    cases hf'
    exact Nat.le_refl _
  | cons op ops ih =>
    rw [run_cons] at hf'
    cases h1 : (r.applyOp op).find? id with
    | none =>
      have hf0 : List.find? (fun x => x.id == id) r.tasks = some t := hf
      have htid : t.id = id := by simpa using List.find?_some hf0
      have hid : id < r.nextId :=
        htid ▸ hwf.1 t (List.mem_of_find?_eq_some hf0)
      have hid2 : id < (r.applyOp op).nextId :=
        Nat.lt_of_lt_of_le hid (nextId_le_applyOp r op)
      rw [find?_none_run (r.applyOp op) id hid2 h1 ops] at hf'
      cases hf'
    | some t1 =>
      have step := bytes_mono_applyOp r id t t1 hf op h1
      exact Nat.le_trans step (ih (r.applyOp op) (WF_applyOp r hwf op) t1 h1 hf')

/-- A non-terminal status is not `failed`. -/
theorem status_ne_failed_of_not_terminal (s : Status)
    (h : s.isTerminal = false) : s ≠ Status.failed := by
  cases s <;> simp_all [Status.isTerminal]

/-- Pointwise preservation of the error/status consistency by an update. -/
theorem applyUpdate_error_iff (t : DownloadTask) (u : UpdateMsg)
    (h : t.error.isSome = true ↔ t.status = Status.failed) :
    ((applyUpdate t u).error.isSome = true ↔
      (applyUpdate t u).status = Status.failed) := by
  unfold applyUpdate
  cases hterm : t.status.isTerminal
  · have hne : t.status ≠ Status.failed :=
      status_ne_failed_of_not_terminal t.status hterm
    have herr : t.error.isSome = false := by
      cases he : t.error.isSome
      · rfl
      · exact absurd (h.mp he) hne
    cases u <;> simp [herr]
  · simpa using h

/-- The error/status consistency is preserved by every operation (the cancel
case uses id-uniqueness from well-formedness). -/
theorem Inv_applyOp (r : Registry) (hwf : r.WF) (hinv : r.Inv) (op : Op) :
    (r.applyOp op).Inv := by
  cases op with
  | register mn rev now =>
    by_cases h : r.hasActive mn = true
    · rw [applyOp_register_dup r mn rev now h]
      exact hinv
    · rw [applyOp_register_fresh r mn rev now (by simpa using h)]
      intro t ht
      rcases List.mem_append.mp ht with h1 | h1
      · exact hinv t h1
      · simp only [List.mem_singleton] at h1
        subst h1
        simp
  | update id u =>
    cases hfind : r.find? id with
    | none =>
      rw [applyOp_update_none r id u hfind]
      exact hinv
    | some t0 =>
      rw [applyOp_update_some r id u t0 hfind]
      intro t ht
      rcases List.mem_map.mp ht with ⟨a, hamem, haeq⟩
      subst haeq
      by_cases hcase : (a.id == id) = true
      · simp only [hcase, if_true]
        exact applyUpdate_error_iff a u (hinv a hamem)
      · simp only [hcase, Bool.false_eq_true, if_false]
        exact hinv a hamem
  | cancel id =>
    cases hfind : r.find? id with
    | none =>
      rw [applyOp_cancel_none r id hfind]
      exact hinv
    | some t0 =>
      by_cases ht0 : t0.status.isTerminal = true
      · rw [applyOp_cancel_terminal r id t0 hfind ht0]
        exact hinv
      · rw [applyOp_cancel_live r id t0 hfind (by simpa using ht0)]
        intro t ht
        rcases List.mem_map.mp ht with ⟨a, hamem, haeq⟩
        subst haeq
        by_cases hcase : (a.id == id) = true
        · have hf0 : List.find? (fun x => x.id == id) r.tasks = some t0 := hfind
          have ht0mem : t0 ∈ r.tasks := List.mem_of_find?_eq_some hf0
          have hids : t0.id = id := by simpa using List.find?_some hf0
          have haid : a.id = id := by simpa using hcase
          have haeq2 : a = t0 :=
            List.inj_on_of_nodup_map hwf.2 hamem ht0mem (haid.trans hids.symm)
          subst haeq2
          have hne : a.status ≠ Status.failed :=
            status_ne_failed_of_not_terminal a.status (by simpa using ht0)
          have herr : a.error.isSome = false := by
            cases he : a.error.isSome
            · rfl
            · exact absurd ((hinv a hamem).mp he) hne
          simp [hcase, herr]
        · simp only [hcase, Bool.false_eq_true, if_false]
          exact hinv a hamem
  | remove id =>
    rw [applyOp_remove]
    intro t ht
    exact hinv t (List.mem_of_mem_filter ht)

/-- The error/status consistency holds in every state reachable by a run
from a well-formed consistent state. -/
theorem Inv_run (r : Registry) (hwf : r.WF) (hinv : r.Inv) (ops : List Op) :
    (r.run ops).Inv := by
  induction ops generalizing r with
  | nil => exact hinv
  | cons op ops ih =>
    rw [run_cons]
    exact ih (r.applyOp op) (WF_applyOp r hwf op) (Inv_applyOp r hwf hinv op)

/-- The empty registry is well-formed. -/
theorem WF_empty : Registry.empty.WF := by
  constructor
  · intro t ht
    cases ht
  · simp [Registry.empty]

/-- The empty registry satisfies the error/status consistency. -/
theorem Inv_empty : Registry.empty.Inv := by
  intro t ht
  cases ht

/-! ## Arithmetic facts about `formatBytes` -/

/-- With enough fuel, the fuel-driven logarithm agrees with `Nat.log`. -/
theorem log1024Aux_eq (fuel : Nat) :
    ∀ n : Nat, n ≤ fuel → log1024Aux fuel n = Nat.log 1024 n := by
  induction fuel with
  | zero =>
    intro n hn
    have : n = 0 := Nat.le_zero.mp hn
    subst this
    simp [log1024Aux, Nat.log_zero_right]
  | succ fuel ih =>
    intro n hn
    unfold log1024Aux
    by_cases h : n < 1024
    · simp [h, Nat.log_of_lt h]
    · have h2 : 1024 ≤ n := Nat.not_lt.mp h
      simp only [h, if_false]
      have hlt : n / 1024 < n := Nat.div_lt_self (by omega) (by norm_num)
      have hle : n / 1024 ≤ fuel := by omega
      rw [ih (n / 1024) hle, Nat.log_div_base]
      have hpos := Nat.log_pos (b := 1024) (n := n) (by norm_num) h2
      omega

/-- The unit index computed by `formatBytes` is the base-1024 logarithm. -/
theorem log1024_eq (n : Nat) : log1024 n = Nat.log 1024 n :=
  log1024Aux_eq n n (Nat.le_refl n)

/-- Below `1024 ^ 5` the computed unit index stays within the `sizes` array. -/
theorem log1024_lt_five (n : Nat) (h0 : 0 < n) (h5 : n < 1024 ^ 5) :
    log1024 n < 5 := by
  rw [log1024_eq]
  by_contra hge
  have h5le : 5 ≤ Nat.log 1024 n := Nat.not_lt.mp hge
  have hp : (1024 : Nat) ^ 5 ≤ 1024 ^ Nat.log 1024 n :=
    Nat.pow_le_pow_right (by norm_num) h5le
  have := Nat.le_trans hp (Nat.pow_log_le_self 1024 h0.ne')
  omega

/-- Two-decimal precision of the rounding step: the printed centi-value is
within half a hundredth of the exact quotient. -/
theorem toFixed2_close (bytes s : Nat) (hs : 0 < s) :
    |((toFixed2 bytes s : ℚ) / 100) - (bytes : ℚ) / (s : ℚ)| ≤ 1 / 200 := by
  have hd : 0 < 2 * s := by omega
  have h1 : toFixed2 bytes s * (2 * s) ≤ 200 * bytes + s :=
    Nat.div_mul_le_self (200 * bytes + s) (2 * s)
  have h2 : 200 * bytes + s < toFixed2 bytes s * (2 * s) + 2 * s := by
    have hdm := Nat.div_add_mod (200 * bytes + s) (2 * s)
    have hmod := Nat.mod_lt (200 * bytes + s) hd
    unfold toFixed2
    calc 200 * bytes + s
        = 2 * s * ((200 * bytes + s) / (2 * s)) + (200 * bytes + s) % (2 * s) :=
          hdm.symm
      _ < 2 * s * ((200 * bytes + s) / (2 * s)) + 2 * s :=
          Nat.add_lt_add_left hmod _
      _ = (200 * bytes + s) / (2 * s) * (2 * s) + 2 * s := by ring_nf
  have hsQ : (0 : ℚ) < (s : ℚ) := by exact_mod_cast hs
  have h1Q : (toFixed2 bytes s : ℚ) * (2 * (s : ℚ)) ≤
      200 * (bytes : ℚ) + (s : ℚ) := by exact_mod_cast h1
  have h2Q : 200 * (bytes : ℚ) + (s : ℚ) <
      (toFixed2 bytes s : ℚ) * (2 * (s : ℚ)) + 2 * (s : ℚ) := by exact_mod_cast h2
  have e1 : ((toFixed2 bytes s : ℚ) / 100) - (bytes : ℚ) / (s : ℚ) =
      ((toFixed2 bytes s : ℚ) * (s : ℚ) - 100 * (bytes : ℚ)) / (100 * (s : ℚ)) := by
    field_simp
  rw [e1, abs_le]
  constructor
  · rw [le_div_iff₀ (by positivity : (0 : ℚ) < 100 * (s : ℚ))]
    nlinarith
  · rw [div_le_iff₀ (by positivity : (0 : ℚ) < 100 * (s : ℚ))]
    nlinarith

/-- A whole multiple of a hundred is rendered with no decimal point. -/
theorem renderCenti_whole (n : Nat) : renderCenti (100 * n) = toString n := by
  unfold renderCenti
  have h1 : 100 * n % 100 = 0 := by omega
  have h2 : 100 * n / 100 = n := by omega
  simp [h1, h2]

/-- In the bytes range the divisor is one and the rounding is exact. -/
theorem toFixed2_one (n : Nat) : toFixed2 n 1 = 100 * n := by
  unfold toFixed2
  omega

/-- Well-formedness is preserved by a whole run. -/
theorem WF_run (r : Registry) (hwf : r.WF) (ops : List Op) :
    (r.run ops).WF := by
  induction ops generalizing r with
  | nil => exact hwf
  | cons op ops ih =>
    rw [run_cons]
    exact ih (r.applyOp op) (WF_applyOp r hwf op)

/-- In a well-formed registry, an `update` addressed to a terminal task
returns success and leaves the registry unchanged (the no-op choice of
§4.2). -/
theorem update_terminal_noop (r : Registry) (hwf : r.WF) (id : Nat)
    (t : DownloadTask) (hf : r.find? id = some t)
    (ht : t.status.isTerminal = true) (u : UpdateMsg) :
    r.update id u = Except.ok r := by
  unfold Registry.update
  rw [hf]
  have hf0 : List.find? (fun x => x.id == id) r.tasks = some t := hf
  have hmaps : (r.tasks.map fun x =>
      if (x.id == id) = true then applyUpdate x u else x) = r.tasks := by
    have hcg : ∀ a ∈ r.tasks,
        (if (a.id == id) = true then applyUpdate a u else a) = a := by
      intro a ha
      by_cases hc : (a.id == id) = true
      · have haid : a.id = id := by simpa using hc
        have htid : t.id = id := by simpa using List.find?_some hf0
        have hat : a = t :=
          List.inj_on_of_nodup_map hwf.2 ha
            (List.mem_of_find?_eq_some hf0) (haid.trans htid.symm)
        subst hat
        simp [hc, applyUpdate_terminal a u ht]
      · simp [hc]
    rw [List.map_congr_left hcg]
    exact List.map_id' r.tasks
  rw [hmaps]

/-- Claim C1: once a task's status is a terminal value, no later operation
changes any of its fields — every later state stores it unchanged or not at
all, any further `update` on it succeeds as a no-op or is rejected with
`UnknownTask`, and it never transitions to another status. -/
theorem C1_terminal_freeze (r : Registry) (hwf : r.WF) (id : Nat)
    (t : DownloadTask) (hf : r.find? id = some t)
    (ht : t.status.isTerminal = true) (ops : List Op) :
    ((r.run ops).find? id = some t ∨ (r.run ops).find? id = none) ∧
    (∀ u : UpdateMsg,
      (r.run ops).update id u = Except.ok (r.run ops) ∨
      (r.run ops).update id u = Except.error RegError.UnknownTask) := by
  have hfr := find?_frozen_run r hwf id t hf ht ops
  refine ⟨hfr, ?_⟩
  intro u
  rcases hfr with hsome | hnone
  · exact Or.inl
      (update_terminal_noop (r.run ops) (WF_run r hwf ops) id t hsome ht u)
  · right
    unfold Registry.update
    rw [hnone]

/-- Concrete instantiation of claim C1: a completed task survives an update,
a cancel and a re-registration of the same model name with all its fields
intact. -/
theorem C1_witness :
    ((Registry.run ⟨[⟨0, "m", none, Status.completed, "done", 5, none, 0⟩], 1⟩
        [Op.update 0 (UpdateMsg.progress 9 "x"), Op.cancel 0,
         Op.register "m" none 7]).find? 0 =
          some ⟨0, "m", none, Status.completed, "done", 5, none, 0⟩ ∨
      (Registry.run ⟨[⟨0, "m", none, Status.completed, "done", 5, none, 0⟩], 1⟩
        [Op.update 0 (UpdateMsg.progress 9 "x"), Op.cancel 0,
         Op.register "m" none 7]).find? 0 = none) ∧
    ((Registry.run ⟨[⟨0, "m", none, Status.completed, "done", 5, none, 0⟩], 1⟩
        [Op.update 0 (UpdateMsg.progress 9 "x"), Op.cancel 0,
         Op.register "m" none 7]).update 0 UpdateMsg.finished =
        Except.ok (Registry.run
          ⟨[⟨0, "m", none, Status.completed, "done", 5, none, 0⟩], 1⟩
          [Op.update 0 (UpdateMsg.progress 9 "x"), Op.cancel 0,
           Op.register "m" none 7]) ∨
      (Registry.run ⟨[⟨0, "m", none, Status.completed, "done", 5, none, 0⟩], 1⟩
        [Op.update 0 (UpdateMsg.progress 9 "x"), Op.cancel 0,
         Op.register "m" none 7]).update 0 UpdateMsg.finished =
        Except.error RegError.UnknownTask) := by
  have h := C1_terminal_freeze
    ⟨[⟨0, "m", none, Status.completed, "done", 5, none, 0⟩], 1⟩ (by decide) 0
    ⟨0, "m", none, Status.completed, "done", 5, none, 0⟩ (by decide) (by decide)
    [Op.update 0 (UpdateMsg.progress 9 "x"), Op.cancel 0,
     Op.register "m" none 7]
  exact ⟨h.1, h.2 UpdateMsg.finished⟩

/-- Claim C2: a `register` while an active task for the same model name
exists fails with `DuplicateActiveDownload` and creates nothing; otherwise it
creates a `pending` task and returns its id, and a second `register` for the
same model name before the first completes fails with
`DuplicateActiveDownload`, leaving exactly one live task for that model. -/
theorem C2_register_duplicate (r : Registry) (hwf : r.WF) (mn : String)
    (rev rev2 : Option String) (now now2 : Nat) :
    (r.hasActive mn = true →
      r.register mn rev now = Except.error RegError.DuplicateActiveDownload) ∧
    (r.hasActive mn = false →
      ∃ r2 : Registry,
        r.register mn rev now = Except.ok (r.nextId, r2) ∧
        r2.find? r.nextId =
          some ⟨r.nextId, mn, rev, Status.pending, "", 0, none, now⟩ ∧
        r2.register mn rev2 now2 =
          Except.error RegError.DuplicateActiveDownload ∧
        r2.countActive mn = 1) := by
  constructor
  · intro h
    unfold Registry.register
    rw [if_pos h]
  · intro h
    refine ⟨⟨r.tasks ++ [⟨r.nextId, mn, rev, Status.pending, "", 0, none, now⟩],
      r.nextId + 1⟩, ?_, ?_, ?_, ?_⟩
    · unfold Registry.register
      rw [if_neg (by simp [h])]
    · unfold Registry.find?
      simp only
      rw [List.find?_append]
      have hnone : List.find? (fun t => t.id == r.nextId) r.tasks = none := by
        apply List.find?_eq_none.mpr
        intro x hx
        have := hwf.1 x hx
        simp only [beq_eq_false_iff_ne, ne_eq, Bool.not_eq_true]
        omega
      rw [hnone]
      simp
    · unfold Registry.register
      rw [if_pos ?_]
      unfold Registry.hasActive
      simp only
      rw [List.any_append]
      simp [Status.isActive]
    · unfold Registry.countActive
      simp only
      rw [List.filter_append]
      have hfil : (r.tasks.filter fun t =>
          t.model_name == mn && t.status.isActive) = [] := by
        rw [List.filter_eq_nil_iff]
        intro a ha
        have := List.any_eq_false.mp h a ha
        simpa using this
      rw [hfil]
      simp [Status.isActive]

/-- Concrete instantiation of claim C2: on an empty registry the first
registration of a model succeeds and the second one, issued before any
progress, is rejected with `DuplicateActiveDownload`. -/
theorem C2_witness :
    Registry.empty.hasActive "m" = false ∧
    (∃ r2 : Registry,
      Registry.empty.register "m" (some "r") 0 =
        Except.ok (Registry.empty.nextId, r2) ∧
      r2.find? Registry.empty.nextId =
        some ⟨Registry.empty.nextId, "m", some "r", Status.pending, "", 0,
          none, 0⟩ ∧
      r2.register "m" (some "r") 1 =
        Except.error RegError.DuplicateActiveDownload ∧
      r2.countActive "m" = 1) :=
  ⟨by decide,
   (C2_register_duplicate Registry.empty (by decide) "m" (some "r") (some "r")
      0 1).2 (by decide)⟩

/-- Claim C5: the `downloaded_bytes` counter of a task is non-decreasing
across any sequence of operations — in particular it never decreases while
the task is downloading, and never decreases before the task reaches a
terminal state. -/
theorem C5_bytes_monotone (r : Registry) (hwf : r.WF) (id : Nat)
    (t t2 : DownloadTask) (hf : r.find? id = some t) (ops : List Op)
    (hf2 : (r.run ops).find? id = some t2) :
    t.downloaded_bytes ≤ t2.downloaded_bytes :=
  bytes_mono_run r hwf id t t2 hf ops hf2

/-- Concrete instantiation of claim C5: a downloading task at 5 bytes,
after a progress report of 9 bytes and a stale report of 3 bytes, is stored
with 9 bytes — not fewer than the 5 it started from. -/
theorem C5_witness :
    (Registry.run ⟨[⟨0, "m", none, Status.downloading, "p", 5, none, 0⟩], 1⟩
      [Op.update 0 (UpdateMsg.progress 9 "x"),
       Op.update 0 (UpdateMsg.progress 3 "y")]).find? 0 =
      some ⟨0, "m", none, Status.downloading, "y", 9, none, 0⟩ ∧
    (5 : Nat) ≤ 9 :=
  ⟨by decide,
   C5_bytes_monotone ⟨[⟨0, "m", none, Status.downloading, "p", 5, none, 0⟩], 1⟩
     (by decide) 0 ⟨0, "m", none, Status.downloading, "p", 5, none, 0⟩
     ⟨0, "m", none, Status.downloading, "y", 9, none, 0⟩ (by decide)
     [Op.update 0 (UpdateMsg.progress 9 "x"),
      Op.update 0 (UpdateMsg.progress 3 "y")] (by decide)⟩

/-- Claim C6: after a cancel on an id has succeeded, any second cancel on
that id — issued at any later point — fails with `AlreadyTerminal` or
`UnknownTask` and leaves the registry state unchanged. -/
theorem C6_cancel_idempotent (r : Registry) (hwf : r.WF) (id : Nat)
    (r2 : Registry) (hc : r.cancel id = Except.ok r2) (ops : List Op) :
    ∃ e : RegError,
      (r2.run ops).cancel id = Except.error e ∧
      (e = RegError.AlreadyTerminal ∨ e = RegError.UnknownTask) ∧
      (r2.run ops).applyOp (Op.cancel id) = r2.run ops := by
  cases hfind : r.find? id with
  | none =>
    unfold Registry.cancel at hc
    simp [hfind] at hc
  | some t0 =>
    by_cases ht0 : t0.status.isTerminal = true
    · unfold Registry.cancel at hc
      simp [hfind, ht0] at hc
    · have hr2 : r.applyOp (Op.cancel id) = r2 := by
        simp [Registry.applyOp, hc]
      have hwf2 : r2.WF := hr2 ▸ WF_applyOp r hwf (Op.cancel id)
      have hfind2 : r2.find? id = some { t0 with status := Status.cancelled } := by
        rw [← hr2, applyOp_cancel_live r id t0 hfind (by simpa using ht0)]
        unfold Registry.find?
        have hf0 : List.find? (fun x => x.id == id) r.tasks = some t0 := hfind
        rw [find?_map_pred _ _ (cancel_fn_pred id id), hf0]
        have hbeq : (t0.id == id) = true := by simpa using List.find?_some hf0
        have hid0 : t0.id = id := by simpa using hbeq
        simp [hbeq, hid0]
      have hterm :
          ({ t0 with status := Status.cancelled } : DownloadTask).status.isTerminal
            = true := rfl
      rcases find?_frozen_run r2 hwf2 id _ hfind2 hterm ops with hsome | hnone
      · refine ⟨RegError.AlreadyTerminal, ?_, Or.inl rfl, ?_⟩
        · simp [Registry.cancel, hsome, hterm]
        · exact applyOp_cancel_terminal _ id _ hsome hterm
      · refine ⟨RegError.UnknownTask, ?_, Or.inr rfl, ?_⟩
        · simp [Registry.cancel, hnone]
        · exact applyOp_cancel_none _ id hnone

/-- Concrete instantiation of claim C6: cancelling a pending task succeeds,
and a second cancel right away fails with `AlreadyTerminal` or `UnknownTask`
without touching the state. -/
theorem C6_witness :
    (Registry.cancel ⟨[⟨0, "m", none, Status.pending, "", 0, none, 0⟩], 1⟩ 0 =
      Except.ok ⟨[⟨0, "m", none, Status.cancelled, "", 0, none, 0⟩], 1⟩) ∧
    ∃ e : RegError,
      (Registry.run ⟨[⟨0, "m", none, Status.cancelled, "", 0, none, 0⟩], 1⟩
          []).cancel 0 = Except.error e ∧
      (e = RegError.AlreadyTerminal ∨ e = RegError.UnknownTask) ∧
      (Registry.run ⟨[⟨0, "m", none, Status.cancelled, "", 0, none, 0⟩], 1⟩
          []).applyOp (Op.cancel 0) =
        Registry.run ⟨[⟨0, "m", none, Status.cancelled, "", 0, none, 0⟩], 1⟩ [] :=
  ⟨by rfl,
   C6_cancel_idempotent ⟨[⟨0, "m", none, Status.pending, "", 0, none, 0⟩], 1⟩
     (by decide) 0 ⟨[⟨0, "m", none, Status.cancelled, "", 0, none, 0⟩], 1⟩
     (by rfl) []⟩

/-- Claim C7: in every snapshot observable through `list_downloads` on a
state reachable from process start, the `error` field is populated if and
only if the `status` field is `failed`. -/
theorem C7_error_iff_failed (ops : List Op) (now : Nat) (s : SnapshotEntry)
    (hs : s ∈ (Registry.empty.run ops).snapshot now) :
    (s.error.isSome = true ↔ s.status = Status.failed) := by
  have hinv := Inv_run Registry.empty WF_empty Inv_empty ops
  unfold Registry.snapshot at hs
  rcases List.mem_map.mp hs with ⟨t, htmem, hteq⟩
  subst hteq
  simpa [snapshotTask] using hinv t htmem

/-- Concrete instantiation of claim C7: the snapshot row of a task that
failed with message `"boom"` has a populated error and status `failed`. -/
theorem C7_witness :
    (⟨0, "m", Status.failed, "", 0, "0 B", 3, some "boom"⟩ : SnapshotEntry) ∈
      (Registry.empty.run
        [Op.register "m" none 0,
         Op.update 0 (UpdateMsg.failedWith "boom")]).snapshot 3 ∧
    ((some "boom" : Option String).isSome = true ↔
      Status.failed = Status.failed) :=
  ⟨by decide,
   C7_error_iff_failed
     [Op.register "m" none 0, Op.update 0 (UpdateMsg.failedWith "boom")] 3
     ⟨0, "m", Status.failed, "", 0, "0 B", 3, some "boom"⟩ (by decide)⟩

/-- Claim C4: every snapshot produced by the tracker carries one of exactly
the five status values `pending`, `downloading`, `completed`, `failed`,
`cancelled`, and every status the polling client's `ActiveDownload` type can
render is among the same five wire strings. -/
theorem C4_status_five_values (ops : List Op) (now : Nat) :
    (∀ s ∈ (Registry.empty.run ops).snapshot now,
      s.status ∈ [Status.pending, Status.downloading, Status.completed,
        Status.failed, Status.cancelled]) ∧
    (∀ c : ClientStatus,
      c.toWire ∈
        ["pending", "downloading", "completed", "failed", "cancelled"]) := by
  constructor
  · intro s _
    cases h : s.status <;> simp [h]
  · intro c
    cases c <;> simp [ClientStatus.toWire]

/-- Concrete instantiation of claim C4: the snapshot row of a freshly
registered task has one of the five statuses, and the client-side
`downloading` status is one of the five wire strings. -/
theorem C4_witness :
    (⟨0, "m", Status.pending, "", 0, "0 B", 0, none⟩ : SnapshotEntry).status ∈
      [Status.pending, Status.downloading, Status.completed, Status.failed,
       Status.cancelled] ∧
    ClientStatus.downloading.toWire ∈
      ["pending", "downloading", "completed", "failed", "cancelled"] :=
  ⟨(C4_status_five_values [Op.register "m" none 0] 0).1
     ⟨0, "m", Status.pending, "", 0, "0 B", 0, none⟩ (by decide),
   (C4_status_five_values [Op.register "m" none 0] 0).2
     ClientStatus.downloading⟩

/-- Claim C8: on every successful poll, the models list is re-fetched if and
only if the number of returned downloads is strictly below the previously
recorded count, and the recorded count is then set to the new length; a
single poll triggers at most the one re-fetch, whatever made the count
drop. -/
theorem C8_poll_reconciliation (prevCount : Nat)
    (downloads : List SnapshotEntry) :
    ((fetchActiveDownloadsStep prevCount downloads).1 = true ↔
      downloads.length < prevCount) ∧
    (fetchActiveDownloadsStep prevCount downloads).2 = downloads.length := by
  constructor
  · simp [fetchActiveDownloadsStep]
  · rfl

/-- Claim C9: `formatElapsedTime` renders seconds as `Ns` below one minute,
as `Nm Ms` below one hour, and as `Nh Mm` from one hour up, using floor
division on whole seconds. -/
theorem C9_formatElapsedTime (seconds : Nat) :
    (seconds < 60 → formatElapsedTime seconds = toString seconds ++ "s") ∧
    (60 ≤ seconds → seconds < 3600 →
      formatElapsedTime seconds =
        toString (seconds / 60) ++ "m " ++ toString (seconds % 60) ++ "s") ∧
    (3600 ≤ seconds →
      formatElapsedTime seconds =
        toString (seconds / 3600) ++ "h " ++
          toString (seconds % 3600 / 60) ++ "m") := by
  refine ⟨?_, ?_, ?_⟩
  · intro h
    unfold formatElapsedTime
    rw [if_pos h]
  · intro h1 h2
    unfold formatElapsedTime
    rw [if_neg (by omega), if_pos h2]
  · intro h
    unfold formatElapsedTime
    rw [if_neg (by omega), if_neg (by omega)]

/-- Concrete instantiation of claim C9: 3661 seconds render as one hour and
one minute. -/
theorem C9_witness :
    3600 ≤ 3661 ∧
    formatElapsedTime 3661 =
      toString (3661 / 3600) ++ "h " ++ toString (3661 % 3600 / 60) ++ "m" :=
  ⟨by decide, (C9_formatElapsedTime 3661).2.2 (by decide)⟩

/-- Claim C10: the WebSocket hook appends each received message to the last
99 stored ones, so after every message event — whatever the previous buffer
and whatever non-empty sequence of messages arrived — the stored list has
length at most 100. -/
theorem C10_messages_bounded {α : Type} (init : List α) (ms : List α)
    (h : ms ≠ []) : (ms.foldl pushMessage init).length ≤ 100 := by
  rcases (List.eq_nil_or_concat ms).resolve_left h with ⟨L, b, rfl⟩
  rw [List.concat_eq_append, List.foldl_append]
  unfold pushMessage
  simp only [List.foldl_cons, List.foldl_nil, List.length_append,
    List.length_drop, List.length_cons, List.length_nil]
  omega

/-- Concrete instantiation of claim C10: three messages into an empty buffer
leave at most one hundred stored messages. -/
theorem C10_witness :
    (["a", "b", "c"] : List String) ≠ [] ∧
    ((["a", "b", "c"] : List String).foldl pushMessage []).length ≤ 100 :=
  ⟨by decide, C10_messages_bounded [] ["a", "b", "c"] (by decide)⟩


/-- Claim C3 (amended): for byte counts below `1024 ^ 5`, and whenever the
JS unit-index computation attained the exact floor of the base-1024
logarithm — i.e. the computed index `i` satisfies
`1024 ^ i ≤ n < 1024 ^ (i + 1)`, which can fail only within a few ulps of
an exact power of 1024, where the index is implementation-defined and the
source may render the unit `"undefined"` — `formatBytes` is a
locale-independent binary-prefix formatting: the index stays within the
array, the unit is among `B/KB/MB/GB/TB`, the printed value is the quotient
rounded to two decimals (printed centi-value within `1/200` of the exact
quotient, trailing zeros stripped), whole byte counts below 1024 print with
no decimals, and zero prints as `"0 B"` whatever the index. -/
theorem C3_formatBytes (n i : Nat) (h5 : n < 1024 ^ 5)
    (hlo : 1024 ^ i ≤ n) (hhi : n < 1024 ^ (i + 1)) :
    i < 5 ∧
    byteUnits.getD i "undefined" ∈ byteUnits ∧
    formatBytesWith i n =
      renderCenti (toFixed2 n (1024 ^ i)) ++ " " ++
        byteUnits.getD i "undefined" ∧
    |((toFixed2 n (1024 ^ i) : ℚ) / 100) - (n : ℚ) / ((1024 ^ i : Nat) : ℚ)|
      ≤ 1 / 200 ∧
    (n < 1024 → formatBytesWith i n = toString n ++ " B") ∧
    formatBytesWith i 0 = "0 B" := by
  have h0 : 0 < n :=
    Nat.lt_of_lt_of_le (Nat.pos_pow_of_pos i (by norm_num)) hlo
  have hi5 : i < 5 := by
    by_contra hge
    have hpow : (1024 : Nat) ^ 5 ≤ 1024 ^ i :=
      Nat.pow_le_pow_right (by norm_num) (Nat.not_lt.mp hge)
    omega
  refine ⟨hi5, ?_, ?_, ?_, ?_, rfl⟩
  · have : i = 0 ∨ i = 1 ∨ i = 2 ∨ i = 3 ∨ i = 4 := by omega
    rcases this with h | h | h | h | h <;> rw [h] <;> decide
  · unfold formatBytesWith
    rw [if_neg h0.ne']
  · exact toFixed2_close n (1024 ^ i) (Nat.pos_pow_of_pos _ (by norm_num))
  · intro hlt
    have hi0 : i = 0 := by
      by_contra hne
      have h1le : 1 ≤ i := Nat.one_le_iff_ne_zero.mpr hne
      have hpow : (1024 : Nat) ^ 1 ≤ 1024 ^ i :=
        Nat.pow_le_pow_right (by norm_num) h1le
      simp only [pow_one] at hpow
      omega
    subst hi0
    unfold formatBytesWith
    rw [if_neg h0.ne']
    simp only [pow_zero, toFixed2_one, renderCenti_whole]
    show toString n ++ " " ++ "B" = toString n ++ " B"
    rw [String.append_assoc]
    rfl

/-- Concrete instantiation of claim C3: at 1536 bytes the attained-floor
index is 1, and the rendering is a KB-unit value within two-decimal
precision. -/
theorem C3_witness :
    (1536 : Nat) < 1024 ^ 5 ∧ 1024 ^ 1 ≤ 1536 ∧ (1536 : Nat) < 1024 ^ (1 + 1) ∧
    ((1 : Nat) < 5 ∧
     byteUnits.getD 1 "undefined" ∈ byteUnits ∧
     formatBytesWith 1 1536 =
       renderCenti (toFixed2 1536 (1024 ^ 1)) ++ " " ++
         byteUnits.getD 1 "undefined" ∧
     |((toFixed2 1536 (1024 ^ 1) : ℚ) / 100) -
         (1536 : ℚ) / ((1024 ^ 1 : Nat) : ℚ)| ≤ 1 / 200 ∧
     ((1536 : Nat) < 1024 → formatBytesWith 1 1536 = toString 1536 ++ " B") ∧
     formatBytesWith 1 0 = "0 B") :=
  ⟨by decide, by decide, by decide,
   C3_formatBytes 1536 1 (by decide) (by decide) (by decide)⟩

/-- Counterexample to claim C3 as stated for every non-negative byte count:
at `2 ^ 51` bytes the exact base-1024 logarithm lies strictly between 5
and 6 (`1024 ^ 5 ≤ 2 ^ 51 < 1024 ^ 6`), so the floor of any reasonable
approximation of it is 5, JS `sizes[5]` is `undefined`, and the rendered
string is `"2 undefined"`, which carries none of the five binary-prefix
units; the reference instantiation `formatBytes` renders the same string. -/
theorem C3_counterexample :
    1024 ^ 5 ≤ 2 ^ 51 ∧ (2 : Nat) ^ 51 < 1024 ^ 6 ∧
    formatBytesWith 5 (2 ^ 51) = "2 undefined" ∧
    formatBytes (2 ^ 51) = "2 undefined" ∧
    hasByteUnit (formatBytesWith 5 (2 ^ 51)) = false ∧
    hasByteUnit (formatBytesWith 1 1536) = true :=
  ⟨by decide, by decide, by decide, by decide, by decide, by decide⟩
